import Mathlib

/-
Verification of the porcelain-v2 status parser (status.go of izumin5210/gitstatus).

Modelling conventions:
- A byte is a `Nat` (the source works on Go `string`/`[]byte` values; all
  grammar-relevant bytes are ASCII).
- `Status` mirrors the Go struct `Status`; Go strings become `List Byte`,
  Go ints become `Nat` (every value the parser ever stores is non-negative:
  counters start at zero and `branch.ab` fields are unsigned digit strings).
- Fallible Go functions returning `error` become `Except String Status`.
- The Go regexes are anchored (`^...$`), so they are modelled as total
  matchers over the whole record.  The regex wildcard `.` (one rune other
  than a line feed) is modelled as one byte other than 10; this coincides
  with Go on every input whose wildcard position is ASCII, and the literal
  header grammar has `.` there.
- `bufio.Scanner`'s internal buffer bound (ErrTooLong for records above the
  default buffer size) is a resource limit and is abstracted away.
-/

namespace Gitstatus

abbrev Byte := Nat

/-- The Go struct `Status` (status.go lines 19-54).  Field defaults are the
Go zero values, matching `st := &Status{}` in `New`. -/
structure Status where
  NumAdded : Nat := 0
  NumDeleted : Nat := 0
  NumUpdated : Nat := 0
  NumRenamed : Nat := 0
  NumConflicts : Nat := 0
  NumUntracked : Nat := 0
  CommitSHA1 : List Byte := []
  LocalBranch : List Byte := []
  RemoteBranch : List Byte := []
  AheadCount : Nat := 0
  BehindCount : Nat := 0
  IsRebased : Bool := false
  IsInitial : Bool := false
  IsDetached : Bool := false
  Untracked : List (List Byte) := []
  Ignored : List (List Byte) := []
  deriving DecidableEq

/-- The fresh accumulator `&Status{}` a parse starts from. -/
def Status.init : Status := {}

/-- ASCII digit, the regex class `[0-9]`. -/
def isDigit (b : Byte) : Bool := 48 ≤ b && b ≤ 57

/-- The regex class `[a-z0-9]` used for `branch.oid` hashes. -/
def isLower09 (b : Byte) : Bool := (97 ≤ b && b ≤ 122) || (48 ≤ b && b ≤ 57)

/-- Strip an exact literal byte sequence from the front of a record,
returning the remainder on success. -/
def dropLit : List Byte → List Byte → Option (List Byte)
  | [], s => some s
  | _ :: _, [] => none
  | a :: as, b :: bs => if a == b then dropLit as bs else none

/-- ASCII bytes of the literal "# branch" shared by all four header regexes. -/
def branchLit : List Byte := [35, 32, 98, 114, 97, 110, 99, 104]

/-- ASCII bytes of "oid " (the `branch.oid ` segment after the wildcard). -/
def oidLit : List Byte := [111, 105, 100, 32]

/-- ASCII bytes of "head ". -/
def headLit : List Byte := [104, 101, 97, 100, 32]

/-- ASCII bytes of "upstream ". -/
def upstreamLit : List Byte := [117, 112, 115, 116, 114, 101, 97, 109, 32]

/-- ASCII bytes of "ab +" (the `branch.ab \+` segment after the wildcard). -/
def abLit : List Byte := [97, 98, 32, 43]

/-- ASCII bytes of "(initial)". -/
def initialLit : List Byte := [40, 105, 110, 105, 116, 105, 97, 108, 41]

/-- ASCII bytes of "(detached)". -/
def detachedLit : List Byte := [40, 100, 101, 116, 97, 99, 104, 101, 100, 41]

/-- Match `^# branch.<seg>` against a record: the literal "# branch", one
wildcard byte (the unescaped `.` of the Go regexes, any byte other than a
line feed), then the literal `seg`; return the remainder. -/
def matchTail (seg line : List Byte) : Option (List Byte) :=
  match dropLit branchLit line with
  | none => none
  | some rest =>
    match rest with
    | [] => none
    | w :: rest2 => if w == 10 then none else dropLit seg rest2

/-- The regex `branchOID` = `^# branch.oid ([a-z0-9]+|\(initial\))$`
(status.go line 87), as the capture group on a full anchored match. -/
def branchOID (line : List Byte) : Option (List Byte) :=
  match matchTail oidLit line with
  | none => none
  | some cap =>
    if (!cap.isEmpty && cap.all isLower09) || cap == initialLit then some cap
    else none

/-- The regex `branchHEAD` = `^# branch.head (.*|\(detached\))$`
(status.go line 91).  `.*` already accepts `(detached)`, so the capture is
the whole remainder whenever it contains no line feed. -/
def branchHEAD (line : List Byte) : Option (List Byte) :=
  match matchTail headLit line with
  | none => none
  | some cap => if cap.all (fun b => b != 10) then some cap else none

/-- The regex `branchUpstream` = `^# branch.upstream (.+)$`
(status.go line 95). -/
def branchUpstream (line : List Byte) : Option (List Byte) :=
  match matchTail upstreamLit line with
  | none => none
  | some cap =>
    if !cap.isEmpty && cap.all (fun b => b != 10) then some cap else none

/-- The regex `branchAB` = `^# branch.ab \+([0-9]+)* \-([0-9]+)*$`
(status.go line 99).  Each `([0-9]+)*` accepts any run of digits, including
the empty run (in which case the Go submatch is the empty string); the two
captures are the digit runs. -/
def branchAB (line : List Byte) : Option (List Byte × List Byte) :=
  match matchTail abLit line with
  | none => none
  | some rest =>
    let d1 := rest.takeWhile isDigit
    match rest.dropWhile isDigit with
    | 32 :: 45 :: d2 => if d2.all isDigit then some (d1, d2) else none
    | _ => none

/-- Base-10 value of a digit string. -/
def digitsVal (s : List Byte) : Nat := s.foldl (fun acc b => 10 * acc + (b - 48)) 0

/-- Go's `math.MaxInt64`. -/
def maxInt64 : Nat := 9223372036854775807

/-- `strconv.ParseInt(s, 10, 64)` restricted to the sign-free strings the
`branchAB` captures can produce: errors (`none`) on the empty string, on a
non-digit byte, and on overflow past `math.MaxInt64`. -/
def ParseInt (s : List Byte) : Option Nat :=
  if s.isEmpty then none
  else if s.all isDigit then
    if digitsVal s ≤ maxInt64 then some (digitsVal s) else none
  else none

/-- The error message produced at status.go lines 133 and 139 (the Go code
appends the `strconv` error text; only the message's identity matters here). -/
def abErrMsg : String := "error parsing branch.ab"

/-- `(*Status).parseHeader` (status.go lines 102-145): try the four header
regexes in order and update the matching field. -/
def Status.parseHeader (st : Status) (line : List Byte) : Except String Status :=
  match branchOID line with
  | some cap =>
    if cap == initialLit then Except.ok { st with IsInitial := true }
    else Except.ok { st with CommitSHA1 := cap }
  | none =>
    match branchHEAD line with
    | some cap =>
      if cap == detachedLit then Except.ok { st with IsDetached := true }
      else Except.ok { st with LocalBranch := cap }
    | none =>
      match branchUpstream line with
      | some cap => Except.ok { st with RemoteBranch := cap }
      | none =>
        match branchAB line with
        | some (d1, d2) =>
          match ParseInt d1 with
          | none => Except.error abErrMsg
          | some v1 =>
            match ParseInt d2 with
            | none => Except.error abErrMsg
            | some v2 => Except.ok { st with AheadCount := v1, BehindCount := v2 }
        | none => Except.ok st

/-- The body of the `switch` in `parsePorcelain` (status.go lines 175-192):
dispatch one record on its first byte.  The switch compares the first rune,
but each label is ASCII, so first-rune equality with a label coincides with
first-byte equality (UTF-8 continuation bytes never equal an ASCII label,
and an empty record decodes to the unmatched replacement rune). -/
def Status.decodeRecord (st : Status) (line : List Byte) : Except String Status :=
  match line.head? with
  | none => Except.ok st
  | some c =>
    if c == 35 then st.parseHeader line          -- '#'
    else if c == 49 then Except.ok st            -- '1': case body empty in source
    else if c == 50 then Except.ok st            -- '2': case body empty in source
    else if c == 117 then Except.ok st           -- 'u': case body empty in source
    else if c == 63 then                         -- '?'
      if 3 ≤ line.length then
        Except.ok { st with Untracked := st.Untracked ++ [line.drop 2] }
      else Except.ok st
    else Except.ok st                            -- '!' and default: no action

/-- The scanner loop over `scanNilBytes` (status.go lines 150-165 with
`bufio.Scanner`): split the stream at NUL bytes into the complete records,
and flag (`true`) a non-empty trailing remainder that contains no NUL,
which the split function reports as an error at end of input. -/
def scanNilBytes : List Byte → List (List Byte) × Bool
  | [] => ([], false)
  | b :: rest =>
    if b == 0 then
      let r := scanNilBytes rest
      ([] :: r.1, r.2)
    else
      match scanNilBytes rest with
      | (t :: ts, e) => ((b :: t) :: ts, e)
      | ([], _) => ([], true)

/-- The framing error of `scanNilBytes` (status.go line 161). -/
def framingMsg : String := "last line doesn't end with a null byte"

/-- The record-processing loop of `parsePorcelain` (status.go lines
173-196): decode records in order, returning the first error immediately. -/
def Status.decodeRecords : Status → List (List Byte) → Except String Status
  | st, [] => Except.ok st
  | st, l :: ls =>
    match st.decodeRecord l with
    | Except.error e => Except.error e
    | Except.ok st' => st'.decodeRecords ls

/-- `(*Status).parsePorcelain` (status.go lines 169-203): tokenize, decode
each complete record (a record-level error aborts at once), then surface
the scanner's framing error, if any, via `scan.Err()`. -/
def Status.parsePorcelain (st : Status) (stream : List Byte) : Except String Status :=
  match st.decodeRecords (scanNilBytes stream).1 with
  | Except.error e => Except.error e
  | Except.ok st' =>
    if (scanNilBytes stream).2 then Except.error framingMsg
    else Except.ok st'

/-- ASCII bytes of the full record prefix "# branch.oid " (with the literal
dot that the regex wildcard also accepts). -/
def oidPre : List Byte := [35, 32, 98, 114, 97, 110, 99, 104, 46, 111, 105, 100, 32]

/-- ASCII bytes of the full record prefix "# branch.ab +". -/
def abPre : List Byte := [35, 32, 98, 114, 97, 110, 99, 104, 46, 97, 98, 32, 43]

/-- Unfolding equation of `scanNilBytes` on a non-empty stream. -/
lemma scan_cons (b : Byte) (rest : List Byte) :
    scanNilBytes (b :: rest) =
      if b == 0 then ([] :: (scanNilBytes rest).1, (scanNilBytes rest).2)
      else
        match scanNilBytes rest with
        | (t :: ts, e) => ((b :: t) :: ts, e)
        | ([], _) => ([], true) := rfl

/-- A stream that does not end with a NUL byte makes the scanner report the
framing flag. -/
theorem scan_err_of : ∀ s : List Byte, s ≠ [] → s.getLast? ≠ some 0 →
    (scanNilBytes s).2 = true := by
  intro s
  induction s with
  | nil => intro h; exact absurd rfl h
  | cons b rest ih =>
    intro _ hlast
    rw [scan_cons]
    cases rest with
    | nil =>
      have hb : (b == 0) = false := by
        apply beq_eq_false_iff_ne.mpr
        intro hb0
        exact hlast (by simp [hb0])
      simp [hb, scanNilBytes]
    | cons c cs =>
      have hlast' : (c :: cs).getLast? ≠ some 0 := by
        rw [List.getLast?_cons_cons] at hlast
        exact hlast
      have h2 := ih (by simp) hlast'
      rcases hscan : scanNilBytes (c :: cs) with ⟨ts, e⟩
      rw [hscan] at h2
      simp only at h2
      subst h2
      by_cases hb : b = 0
      · simp [hb]
      · have hb' : (b == 0) = false := beq_eq_false_iff_ne.mpr hb
        cases ts with
        | nil => simp [hb']
        | cons t ts' => simp [hb']

/-- Splitting a digit run followed by " -..." with `takeWhile`/`dropWhile`. -/
theorem span_digits (d1 d2 : List Byte) (h1 : d1.all isDigit = true) :
    (d1 ++ 32 :: 45 :: d2).takeWhile isDigit = d1 ∧
      (d1 ++ 32 :: 45 :: d2).dropWhile isDigit = 32 :: 45 :: d2 := by
  induction d1 with
  | nil =>
    constructor
    · simp [List.takeWhile_cons, isDigit]
    · simp [List.dropWhile_cons, isDigit]
  | cons b bs ih =>
    simp only [List.all_cons, Bool.and_eq_true] at h1
    have ih' := ih h1.2
    constructor
    · simp [List.takeWhile_cons, h1.1, ih'.1]
    · simp [List.dropWhile_cons, h1.1, ih'.2]

/-- `ParseInt` fails exactly on the empty capture and on overflow, for the
digit-only captures `branchAB` produces. -/
theorem ParseInt_none (d : List Byte) (hd : d.all isDigit = true)
    (h : d = [] ∨ maxInt64 < digitsVal d) : ParseInt d = none := by
  rcases h with h | h
  · subst h; simp [ParseInt]
  · by_cases he : d.isEmpty
    · simp [ParseInt, he]
    · simp [ParseInt, he, hd, Nat.not_le.mpr h]

/-- `ParseInt` succeeds on a non-empty digit run that fits in an `int64`. -/
theorem ParseInt_some (d : List Byte) (hne : d ≠ []) (hd : d.all isDigit = true)
    (h : digitsVal d ≤ maxInt64) : ParseInt d = some (digitsVal d) := by
  have he : d.isEmpty = false := by
    cases d with
    | nil => exact absurd rfl hne
    | cons a as => rfl
  simp [ParseInt, he, hd, h]

/-- The `branchAB` regex matches a `# branch.ab +<d1> -<d2>` record with
digit-only fields and captures the two digit runs. -/
theorem branchAB_abLine (d1 d2 : List Byte) (h1 : d1.all isDigit = true)
    (h2 : d2.all isDigit = true) :
    branchAB (abPre ++ d1 ++ 32 :: 45 :: d2) = some (d1, d2) := by
  have hspan := span_digits d1 d2 h1
  show (let d := (d1 ++ 32 :: 45 :: d2).takeWhile isDigit
        match (d1 ++ 32 :: 45 :: d2).dropWhile isDigit with
        | 32 :: 45 :: d2' => if d2'.all isDigit then some (d, d2') else none
        | _ => none) = some (d1, d2)
  rw [hspan.1, hspan.2]
  simp [h2]

/-- A `# branch.ab` record never matches the `branchOID` regex (the segment
after the wildcard differs). -/
lemma branchOID_abLine (d1 d2 : List Byte) :
    branchOID (abPre ++ d1 ++ 32 :: 45 :: d2) = none := rfl

/-- A `# branch.ab` record never matches the `branchHEAD` regex. -/
lemma branchHEAD_abLine (d1 d2 : List Byte) :
    branchHEAD (abPre ++ d1 ++ 32 :: 45 :: d2) = none := rfl

/-- A `# branch.ab` record never matches the `branchUpstream` regex. -/
lemma branchUpstream_abLine (d1 d2 : List Byte) :
    branchUpstream (abPre ++ d1 ++ 32 :: 45 :: d2) = none := rfl

/-- Decoding a `# branch.ab +<d1> -<d2>` record with digit-only fields runs
`ParseInt` on the two captures exactly as status.go lines 129-143 do. -/
theorem parseHeader_abLine (st : Status) (d1 d2 : List Byte)
    (h1 : d1.all isDigit = true) (h2 : d2.all isDigit = true) :
    st.parseHeader (abPre ++ d1 ++ 32 :: 45 :: d2) =
      match ParseInt d1 with
      | none => Except.error abErrMsg
      | some v1 =>
        match ParseInt d2 with
        | none => Except.error abErrMsg
        | some v2 => Except.ok { st with AheadCount := v1, BehindCount := v2 } := by
  simp only [Status.parseHeader, branchOID_abLine, branchHEAD_abLine,
    branchUpstream_abLine, branchAB_abLine d1 d2 h1 h2]

/-- The `branchOID` regex matches `# branch.oid <hash>` for a non-empty
`[a-z0-9]` hash and captures the hash. -/
lemma branchOID_oidLine (hash : List Byte) (hne : hash ≠ [])
    (hlow : hash.all isLower09 = true) :
    branchOID (oidPre ++ hash) = some hash := by
  have he : hash.isEmpty = false := by
    cases hash with
    | nil => exact absurd rfl hne
    | cons a as => rfl
  show (if (!hash.isEmpty && hash.all isLower09) || hash == initialLit then
          some hash
        else none) = some hash
  simp [he, hlow]

/-- C1 (amended): a stream that ends with unconsumed data containing no NUL
byte makes the parse fail, and the error is the tokenizer's framing error
whenever decoding the complete records itself raised no error; the empty
stream parses successfully into the untouched fresh accumulator (zero
records). -/
theorem tokenizer_missing_delimiter :
    (∀ s : List Byte, s ≠ [] → s.getLast? ≠ some 0 →
      (∃ e, Status.init.parsePorcelain s = Except.error e) ∧
      (∀ st', Status.init.decodeRecords (scanNilBytes s).1 = Except.ok st' →
        Status.init.parsePorcelain s = Except.error framingMsg))
    ∧ Status.init.parsePorcelain [] = Except.ok Status.init := by
  constructor
  · intro s h1 h2
    have herr := scan_err_of s h1 h2
    constructor
    · rcases hd : Status.init.decodeRecords (scanNilBytes s).1 with e | st'
      · exact ⟨e, by simp only [Status.parsePorcelain, hd]⟩
      · refine ⟨framingMsg, ?_⟩
        simp only [Status.parsePorcelain, hd, herr]
        simp
    · intro st' hok
      simp only [Status.parsePorcelain, hok, herr]
      simp
  · rfl

/-- C1 witness: the one-byte stream "#" (no trailing NUL) fails, and the
empty stream succeeds. -/
theorem tokenizer_missing_delimiter_witness :
    (∃ e, Status.init.parsePorcelain [35] = Except.error e) ∧
      Status.init.parsePorcelain [] = Except.ok Status.init :=
  ⟨(tokenizer_missing_delimiter.1 [35] (by decide) (by decide)).1,
    tokenizer_missing_delimiter.2⟩

/-- C1 counterexample: the stream "# branch.ab + -\x00x" ends with
unconsumed data containing no NUL byte, yet the parse fails with the
numeric-field error of the already-delivered record, not with the framing
error, refuting C1 as stated. -/
theorem tokenizer_error_identity_cex :
    ([35, 32, 98, 114, 97, 110, 99, 104, 46, 97, 98, 32, 43, 32, 45, 0, 120] :
        List Byte) ≠ [] ∧
    ([35, 32, 98, 114, 97, 110, 99, 104, 46, 97, 98, 32, 43, 32, 45, 0, 120] :
        List Byte).getLast? ≠ some 0 ∧
    Status.init.parsePorcelain
        [35, 32, 98, 114, 97, 110, 99, 104, 46, 97, 98, 32, 43, 32, 45, 0, 120] =
      Except.error abErrMsg ∧
    abErrMsg ≠ framingMsg :=
  ⟨by decide, by decide, rfl, by decide⟩

/-- C2 (amended): a `# branch.ab` record whose two fields are digit runs
still matching the regex, but where a field is empty or its value overflows
a signed 64-bit integer, aborts the parse at once with the numeric-field
error: no later record is processed. -/
theorem branchAB_malformed_fatal :
    ∀ (st : Status) (d1 d2 : List Byte) (rest : List (List Byte)),
      d1.all isDigit = true → d2.all isDigit = true →
      (d1 = [] ∨ maxInt64 < digitsVal d1 ∨ d2 = [] ∨ maxInt64 < digitsVal d2) →
      st.decodeRecords ((abPre ++ d1 ++ 32 :: 45 :: d2) :: rest) =
        Except.error abErrMsg := by
  intro st d1 d2 rest h1 h2 h
  have hline : st.decodeRecord (abPre ++ d1 ++ 32 :: 45 :: d2) =
      Except.error abErrMsg := by
    have hdr : st.decodeRecord (abPre ++ d1 ++ 32 :: 45 :: d2) =
        st.parseHeader (abPre ++ d1 ++ 32 :: 45 :: d2) := rfl
    rw [hdr, parseHeader_abLine st d1 d2 h1 h2]
    rcases h with h | h | h | h
    · rw [ParseInt_none d1 h1 (Or.inl h)]
    · rw [ParseInt_none d1 h1 (Or.inr h)]
    · rcases hp : ParseInt d1 with _ | v1
      · rfl
      · rw [ParseInt_none d2 h2 (Or.inl h)]
    · rcases hp : ParseInt d1 with _ | v1
      · rfl
      · rw [ParseInt_none d2 h2 (Or.inr h)]
  simp only [Status.decodeRecords, hline]

/-- C2 witness: "# branch.ab + -3" (empty ahead field) aborts decoding even
with a further record pending. -/
theorem branchAB_malformed_fatal_witness :
    Status.init.decodeRecords ((abPre ++ [] ++ 32 :: 45 :: [51]) :: [[35]]) =
      Except.error abErrMsg :=
  branchAB_malformed_fatal Status.init [] [51] [[35]] (by decide) (by decide)
    (Or.inl rfl)

/-- C2 counterexample: the record "# branch.ab +1a -2" has a non-digit byte
in its ahead field; C2 demands a fatal numeric-field error, but the record
fails the `branchAB` regex, is silently ignored, and the parse succeeds. -/
theorem branchAB_nondigit_ignored_cex :
    Status.init.parsePorcelain
        [35, 32, 98, 114, 97, 110, 99, 104, 46, 97, 98, 32, 43, 49, 97, 32, 45, 50, 0] =
      Except.ok Status.init := rfl

/-- C3: decoding `# branch.oid (initial)` from the fresh accumulator sets
`IsInitial` and leaves `CommitSHA1` empty; decoding `# branch.oid <hash>`
for a well-formed hash sets `CommitSHA1` to the hash verbatim and leaves
`IsInitial` false; the literal "(initial)" is not itself a well-formed hash,
so the two outcomes are mutually exclusive for a single record. -/
theorem branchOID_decode :
    Status.init.parseHeader (oidPre ++ initialLit) =
      Except.ok { Status.init with IsInitial := true }
    ∧ (∀ hash : List Byte, hash ≠ [] → hash.all isLower09 = true →
        Status.init.parseHeader (oidPre ++ hash) =
          Except.ok { Status.init with CommitSHA1 := hash })
    ∧ initialLit.all isLower09 = false := by
  refine ⟨rfl, ?_, by decide⟩
  intro hash hne hlow
  have hneq : (hash == initialLit) = false := by
    apply beq_eq_false_iff_ne.mpr
    intro heq
    rw [heq] at hlow
    exact absurd hlow (by decide)
  simp only [Status.parseHeader, branchOID_oidLine hash hne hlow, hneq]
  simp

/-- C3 witness: the hash "abc123". -/
theorem branchOID_decode_witness :
    Status.init.parseHeader (oidPre ++ [97, 98, 99, 49, 50, 51]) =
      Except.ok { Status.init with CommitSHA1 := [97, 98, 99, 49, 50, 51] } :=
  branchOID_decode.2.1 [97, 98, 99, 49, 50, 51] (by decide) (by decide)

/-- C4: a `?` record of length at least 3 appends exactly the record minus
its two leading bytes (the marker and the separating space) to `Untracked`,
keeping embedded spaces and the existing order; the stream
"? file one\x00? file two\x00" yields exactly ["file one", "file two"]. -/
theorem untracked_append :
    (∀ (st : Status) (line : List Byte), line.head? = some 63 →
      3 ≤ line.length →
      st.decodeRecord line =
        Except.ok { st with Untracked := st.Untracked ++ [line.drop 2] })
    ∧ Status.init.parsePorcelain
        [63, 32, 102, 105, 108, 101, 32, 111, 110, 101, 0,
         63, 32, 102, 105, 108, 101, 32, 116, 119, 111, 0] =
      Except.ok { Status.init with Untracked :=
        [[102, 105, 108, 101, 32, 111, 110, 101],
         [102, 105, 108, 101, 32, 116, 119, 111]] } := by
  constructor
  · intro st line h1 h3
    cases line with
    | nil => simp at h1
    | cons c rest =>
      simp only [List.head?, Option.some.injEq] at h1
      subst h1
      simp only [List.length_cons] at h3
      simp [Status.decodeRecord, h3]
  · rfl

/-- C4 witness: the record "? a". -/
theorem untracked_append_witness :
    Status.init.decodeRecord [63, 32, 97] =
      Except.ok { Status.init with
        Untracked := Status.init.Untracked ++ [List.drop 2 [63, 32, 97]] } :=
  untracked_append.1 Status.init [63, 32, 97] rfl (by decide)

/-- C5: a `# branch.ab +<d1> -<d2>` record with non-empty digit fields that
fit in an `int64` sets `AheadCount` and `BehindCount` to the two base-10
values; scenario C: "# branch.ab +1 -3" gives ahead 1, behind 3. -/
theorem branchAB_counts :
    (∀ (st : Status) (d1 d2 : List Byte), d1 ≠ [] → d2 ≠ [] →
      d1.all isDigit = true → d2.all isDigit = true →
      digitsVal d1 ≤ maxInt64 → digitsVal d2 ≤ maxInt64 →
      st.parseHeader (abPre ++ d1 ++ 32 :: 45 :: d2) =
        Except.ok { st with AheadCount := digitsVal d1,
                            BehindCount := digitsVal d2 })
    ∧ Status.init.parsePorcelain
        [35, 32, 98, 114, 97, 110, 99, 104, 46, 97, 98, 32, 43, 49, 32, 45, 51, 0] =
      Except.ok { Status.init with AheadCount := 1, BehindCount := 3 } := by
  constructor
  · intro st d1 d2 hne1 hne2 h1 h2 hv1 hv2
    rw [parseHeader_abLine st d1 d2 h1 h2, ParseInt_some d1 hne1 h1 hv1,
      ParseInt_some d2 hne2 h2 hv2]
  · rfl

/-- C5 witness: the fields "1" and "3". -/
theorem branchAB_counts_witness :
    Status.init.parseHeader (abPre ++ [49] ++ 32 :: 45 :: [51]) =
      Except.ok { Status.init with AheadCount := digitsVal [49],
                                   BehindCount := digitsVal [51] } :=
  branchAB_counts.1 Status.init [49] [51] (by decide) (by decide) (by decide)
    (by decide) (by decide) (by decide)

/-- C6 evaluation: the `u` record "u foo" leaves the accumulator untouched
(the source's `case 'u'` has an empty body), so `NumConflicts` stays 0
instead of being incremented as the claim and the field's own documentation
require. -/
theorem unmerged_not_counted :
    Status.init.parsePorcelain [117, 32, 102, 111, 111, 0] =
      Except.ok Status.init ∧ Status.init.NumConflicts = 0 :=
  ⟨rfl, rfl⟩

/-- C7 evaluation: the `!` record "! foo" leaves the accumulator untouched
(the source's `case '!'` has an empty body), so `Ignored` stays empty
instead of receiving the path as the claim and the field's own
documentation require. -/
theorem ignored_not_appended :
    Status.init.parsePorcelain [33, 32, 102, 111, 111, 0] =
      Except.ok Status.init ∧ Status.init.Ignored = [] :=
  ⟨rfl, rfl⟩

/-- C8 evaluation: after parsing "? a", the untracked sequence has length 1
while `NumUntracked` is still 0, violating the claimed invariant (and the
source's own comment that `NumUntracked` is simply the length of the
`Untracked` slice). -/
theorem untracked_count_mismatch :
    ∃ st : Status, Status.init.parsePorcelain [63, 32, 97, 0] = Except.ok st ∧
      st.Untracked.length = 1 ∧ st.NumUntracked = 0 :=
  ⟨{ Status.init with Untracked := [[97]] }, rfl, rfl, rfl⟩

/-- C9: the parse is deterministic in the stream: two runs from fresh
accumulators over the same bytes produce the same result (the embedded
parser is a pure function of the stream; the Go code reads no other
state). -/
theorem parse_deterministic : ∀ (stream : List Byte) (st1 st2 : Status),
    st1 = Status.init → st2 = Status.init →
    st1.parsePorcelain stream = st2.parsePorcelain stream := by
  intro stream st1 st2 h1 h2
  rw [h1, h2]

/-- C9 witness: the one-record empty stream "\x00". -/
theorem parse_deterministic_witness :
    Status.init.parsePorcelain [0] = Status.init.parsePorcelain [0] :=
  parse_deterministic [0] Status.init Status.init rfl rfl

/-- C10: a `?` record shorter than 3 bytes (such as "? " or "??") appends
nothing, raises no error, and leaves the accumulator unchanged. -/
theorem short_untracked_dropped :
    (∀ (st : Status) (line : List Byte), line.head? = some 63 →
      line.length < 3 → st.decodeRecord line = Except.ok st)
    ∧ Status.init.parsePorcelain [63, 32, 0] = Except.ok Status.init
    ∧ Status.init.parsePorcelain [63, 63, 0] = Except.ok Status.init := by
  refine ⟨?_, rfl, rfl⟩
  intro st line h1 h3
  cases line with
  | nil => simp at h1
  | cons c rest =>
    simp only [List.head?, Option.some.injEq] at h1
    subst h1
    simp only [List.length_cons] at h3
    simp [Status.decodeRecord, Nat.not_le.mpr h3]

/-- C10 witness: the two-byte record "? ". -/
theorem short_untracked_dropped_witness :
    Status.init.decodeRecord [63, 32] = Except.ok Status.init :=
  short_untracked_dropped.1 Status.init [63, 32] rfl (by decide)

end Gitstatus
